import Mathlib

/-!
# Verification of the Task Store Service (`src/main.py`)

A shallow embedding of the FastAPI to-do application: JSON request bodies,
pydantic-style parsing and validation, the in-memory store (task list plus
id counter), and the five endpoint handlers.  Theorems about the embedding
settle the specification claims.

Modelling notes tied to the source:
* `TaskBase.validate_title` strips the title and rejects an
  empty-after-strip value (`main.py` lines 12-17); Python `str.strip`
  removes whitespace from both ends, embedded as `pyStrip`.
* `TaskUpdate` has three `Optional` fields defaulting to `None` with
  `extra='ignore'` (lines 22-27).  `model_dump(exclude_unset=True)`
  distinguishes "field not supplied" from "field supplied as null", so the
  embedding of a parsed update body stores `Option (Option _)` per field:
  `none` = not supplied, `some v` = supplied with value `v` (where `v` may
  itself be `none`, i.e. JSON null).
* `model_copy(update=...)` (line 60) performs NO validation, so an updated
  task can hold `None` where the `Task` annotation says `str`/`bool`; the
  runtime store is therefore embedded with `Option`-typed fields, which a
  freshly created task always fills with `some`.
* Pydantic v2's default config ignores unknown keys on `TaskCreate`, and
  `TaskUpdate` sets `extra='ignore'` explicitly.
-/

namespace TodoApp

/-- A JSON value, as far as the request bodies of this API need. -/
inductive JVal where
  | jnull
  | jbool (b : Bool)
  | jint (n : Int)
  | jstr (s : String)
deriving Repr, DecidableEq

/-- A JSON object body: a list of key/value pairs. -/
abbrev JObj := List (String × JVal)

/-- Look up the first binding of key `k` in a JSON object. -/
def jget (k : String) : JObj → Option JVal
  | [] => none
  | (k₁, v) :: rest => if k₁ = k then some v else jget k rest

/-- Errors the service surfaces: pydantic validation failures (HTTP 422)
and explicit `HTTPException`s (here always 404 "Task not found"). -/
inductive ApiError where
  | validationError (msg : String)
  | httpException (status : Nat) (detail : String)
deriving Repr, DecidableEq

/-- Characters removed by Python `str.strip()` for ASCII input:
space, tab, newline, carriage return, vertical tab, form feed. -/
def isPySpace (c : Char) : Bool :=
  c = ' ' || c = '\t' || c = '\n' || c = '\r' || c = '\x0b' || c = '\x0c'

/-- Python `s.strip()`: drop whitespace from both ends of the string. -/
def pyStrip (s : String) : String :=
  ⟨((s.data.dropWhile isPySpace).reverse.dropWhile isPySpace).reverse⟩

/-- `TaskBase.validate_title` (main.py lines 12-17): reject a title that is
empty after stripping, otherwise return the stripped title. -/
def validate_title (v : String) : Except ApiError String :=
  if pyStrip v = "" then .error (.validationError "Title cannot be empty")
  else .ok (pyStrip v)

/-- A parsed, validated `TaskCreate` body (main.py lines 7-20): `title` has
passed `validate_title` (so it is stored stripped), `completed` defaulted
to `false` when absent. -/
structure TaskCreate where
  title : String
  description : String
  completed : Bool
deriving Repr, DecidableEq

/-- A parsed `TaskUpdate` body (main.py lines 22-27) as seen through
`model_dump(exclude_unset=True)`: each field records whether it was
supplied at all and, if so, the (possibly null) supplied value. -/
structure TaskUpdate where
  title : Option (Option String)
  description : Option (Option String)
  completed : Option (Option Bool)
deriving Repr, DecidableEq

/-- A runtime task record (main.py lines 29-32).  Fields are `Option`-typed
because `model_copy(update=...)` can store `None` into any of them without
validation; creation always fills them with `some`. -/
structure Task where
  id : Int
  title : Option String
  description : Option String
  completed : Option Bool
deriving Repr, DecidableEq

/-- The declared `Task` shape: `title` and `description` strings and
`completed` boolean, i.e. none of the runtime fields is `None`. -/
def TaskShape (t : Task) : Prop :=
  t.title.isSome ∧ t.description.isSome ∧ t.completed.isSome

instance (t : Task) : Decidable (TaskShape t) := by
  unfold TaskShape; infer_instance

/-!
Pydantic parsing of a `TaskCreate` request body: `title` and `description`
are required strings, `title` runs `validate_title`, `completed` is an
optional boolean defaulting to `false`; unknown keys are ignored (pydantic
v2 default `extra='ignore'`).  Lax-mode scalar coercions (e.g. the integer
1 for a boolean) are not modelled; no claim depends on them.
-/

/-- A required pydantic `str` field: the key must be present with a string
value. -/
def reqStrField (ov : Option JVal) : Except ApiError String :=
  match ov with
  | some (.jstr v) => .ok v
  | some _ => .error (.validationError "Input should be a valid string")
  | none => .error (.validationError "Field required")

/-- A `bool = False` pydantic field: absent defaults to `false`. -/
def optBoolField (ov : Option JVal) : Except ApiError Bool :=
  match ov with
  | some (.jbool b) => .ok b
  | none => .ok false
  | some _ => .error (.validationError "Input should be a valid boolean")

/-- Parse a `TaskCreate` body field by field, per the rules above. -/
def parseTaskCreate (o : JObj) : Except ApiError TaskCreate :=
  match reqStrField (jget "title" o) with
  | .error e => .error e
  | .ok rawTitle =>
    match validate_title rawTitle with
    | .error e => .error e
    | .ok title =>
      match reqStrField (jget "description" o) with
      | .error e => .error e
      | .ok description =>
        match optBoolField (jget "completed" o) with
        | .error e => .error e
        | .ok completed => .ok ⟨title, description, completed⟩

/-- Decode a JSON value as a string field value. -/
def asStr : JVal → Option String
  | .jstr v => some v
  | _ => none

/-- Decode a JSON value as a boolean field value. -/
def asBool : JVal → Option Bool
  | .jbool b => some b
  | _ => none

/-- Parse one `Optional[...] = None` pydantic field from the (possible)
JSON value at its key: absent key ↦ unset (`none`), JSON null ↦ supplied
`None` (`some none`), a decodable value ↦ supplied value, anything else ↦
validation error. -/
def parseOptField {α : Type} (decode : JVal → Option α) (errMsg : String) :
    Option JVal → Except ApiError (Option (Option α))
  | none => .ok none
  | some .jnull => .ok (some none)
  | some v =>
    match decode v with
    | some a => .ok (some (some a))
    | none => .error (.validationError errMsg)

/-- Pydantic parsing of a `TaskUpdate` request body: all three fields
optional (absent ↦ unset, JSON null ↦ supplied `None`), no title
validation, unknown keys ignored (`extra='ignore'`). -/
def parseTaskUpdate (o : JObj) : Except ApiError TaskUpdate :=
  match parseOptField asStr "Input should be a valid string" (jget "title" o) with
  | .error e => .error e
  | .ok t =>
    match parseOptField asStr "Input should be a valid string"
        (jget "description" o) with
    | .error e => .error e
    | .ok d =>
      match parseOptField asBool "Input should be a valid boolean"
          (jget "completed" o) with
      | .error e => .error e
      | .ok c => .ok ⟨t, d, c⟩

/-- `Task(id=..., **task.model_dump())` (main.py line 50): constructing a
`Task` re-runs the inherited `validate_title` validator on the title. -/
def mkTask (id : Int) (title description : String) (completed : Bool) :
    Except ApiError Task := do
  let t ← validate_title title
  Except.ok ⟨id, some t, some description, some completed⟩

/-- The mutable module state of main.py: `tasks` (line 34) and the counter
`next_id[0]` (line 35). -/
structure StoreState where
  tasks : List Task
  next_id : Int
deriving Repr, DecidableEq

/-- The state at process start: no tasks, counter at 1. -/
def initState : StoreState := ⟨[], 1⟩

/-- The loop of `get_task` (main.py lines 42-46): return the first task
whose id matches, else raise 404 "Task not found". -/
def findTask (task_id : Int) : List Task → Except ApiError Task
  | [] => .error (.httpException 404 "Task not found")
  | t :: ts => if t.id = task_id then .ok t else findTask task_id ts

/-- `task.model_copy(update=update_data)` (main.py line 60): overwrite
exactly the fields present in the dump (`exclude_unset=True`), keep the
rest; `TaskUpdate` has no `id` field, so `id` is never in the dump. -/
def applyUpdate (u : TaskUpdate) (t : Task) : Task :=
  { id := t.id
    title := u.title.getD t.title
    description := u.description.getD t.description
    completed := u.completed.getD t.completed }

/-- The loop of `update_task` (main.py lines 57-62): find the first task
with the given id, replace it in place by the copied-and-updated task, and
return that task together with the new list; `none` when no task matches. -/
def updateList (task_id : Int) (u : TaskUpdate) :
    List Task → Option (Task × List Task)
  | [] => none
  | t :: ts =>
    if t.id = task_id then
      some (applyUpdate u t, applyUpdate u t :: ts)
    else
      (updateList task_id u ts).map (fun r => (r.1, t :: r.2))

/-- The loop of `delete_task` (main.py lines 67-70): `tasks.pop(i)` at the
first index whose task matches; `none` when no task matches. -/
def deleteList (task_id : Int) : List Task → Option (List Task)
  | [] => none
  | t :: ts =>
    if t.id = task_id then some ts
    else (deleteList task_id ts).map (fun ts₁ => t :: ts₁)

/-- Endpoint `GET /tasks` (main.py lines 37-39): return the whole list,
state untouched. -/
def get_tasks (s : StoreState) : List Task × StoreState :=
  (s.tasks, s)

/-- Endpoint `GET /tasks/{task_id}` (main.py lines 41-46). -/
def get_task (task_id : Int) (s : StoreState) :
    Except ApiError Task × StoreState :=
  (findTask task_id s.tasks, s)

/-- Handler body of `POST /tasks` (main.py lines 49-53) on an
already-parsed `TaskCreate`: build the `Task` (which re-validates the
title), append it, increment the counter.  A raise during construction
leaves the state untouched since both mutations come after it. -/
def create_task (tc : TaskCreate) (s : StoreState) :
    Except ApiError Task × StoreState :=
  match mkTask s.next_id tc.title tc.description tc.completed with
  | .error e => (.error e, s)
  | .ok new_task =>
      (.ok new_task,
       { tasks := s.tasks ++ [new_task], next_id := s.next_id + 1 })

/-- Endpoint `POST /tasks`: FastAPI parses and validates the body into a
`TaskCreate` before the handler runs; a validation failure never reaches
the store. -/
def create_endpoint (body : JObj) (s : StoreState) :
    Except ApiError Task × StoreState :=
  match parseTaskCreate body with
  | .error e => (.error e, s)
  | .ok tc => create_task tc s

/-- Handler body of `PUT /tasks/{task_id}` (main.py lines 56-63) on an
already-parsed `TaskUpdate`. -/
def update_task (task_id : Int) (u : TaskUpdate) (s : StoreState) :
    Except ApiError Task × StoreState :=
  match updateList task_id u s.tasks with
  | some (t₁, ts₁) => (.ok t₁, { s with tasks := ts₁ })
  | none => (.error (.httpException 404 "Task not found"), s)

/-- Endpoint `PUT /tasks/{task_id}`: body parsing precedes the handler. -/
def update_endpoint (task_id : Int) (body : JObj) (s : StoreState) :
    Except ApiError Task × StoreState :=
  match parseTaskUpdate body with
  | .error e => (.error e, s)
  | .ok u => update_task task_id u s

/-- Endpoint `DELETE /tasks/{task_id}` (main.py lines 66-71): returns no
content on success. -/
def delete_endpoint (task_id : Int) (s : StoreState) :
    Except ApiError Unit × StoreState :=
  match deleteList task_id s.tasks with
  | some ts₁ => (.ok (), { s with tasks := ts₁ })
  | none => (.error (.httpException 404 "Task not found"), s)

/-- One HTTP request against the service, body included where one exists. -/
inductive Op where
  | list
  | getOne (task_id : Int)
  | create (body : JObj)
  | update (task_id : Int) (body : JObj)
  | delete (task_id : Int)
deriving Repr, DecidableEq

/-- The successful payload of a request. -/
inductive OpOut where
  | listing (l : List Task)
  | item (t : Task)
  | noContent
deriving Repr, DecidableEq

/-- Dispatch one request to its endpoint. -/
def runOp : Op → StoreState → Except ApiError OpOut × StoreState
  | .list, s => (.ok (.listing (get_tasks s).1), (get_tasks s).2)
  | .getOne tid, s => (Except.map OpOut.item (get_task tid s).1, (get_task tid s).2)
  | .create body, s =>
      (Except.map OpOut.item (create_endpoint body s).1, (create_endpoint body s).2)
  | .update tid body, s =>
      (Except.map OpOut.item (update_endpoint tid body s).1,
       (update_endpoint tid body s).2)
  | .delete tid, s =>
      (Except.map (fun _ => OpOut.noContent) (delete_endpoint tid s).1,
       (delete_endpoint tid s).2)

/-- The id handed out by a successful create response, if any. -/
def createdId : Except ApiError OpOut → List Int
  | .ok (.item t) => [t.id]
  | _ => []

/-- The ids handed out by one request: only a successful create assigns
one (main.py line 50). -/
def assignedIds (op : Op) (r : Except ApiError OpOut) : List Int :=
  match op with
  | .create _ => createdId r
  | _ => []

/-- States (together with the history of assigned ids) reachable from
process start by any sequence of requests. -/
inductive Reachable : StoreState → List Int → Prop where
  | init : Reachable initState []
  | step (op : Op) (s : StoreState) (ids : List Int)
      (r : Except ApiError OpOut) (s₁ : StoreState) :
      Reachable s ids → runOp op s = (r, s₁) →
      Reachable s₁ (ids ++ assignedIds op r)

/-! ## Lemmas about `pyStrip` -/

lemma dropWhile_dropWhile (p : Char → Bool) (l : List Char) :
    (l.dropWhile p).dropWhile p = l.dropWhile p := by
  induction l with
  | nil => rfl
  | cons a l ih =>
    by_cases h : p a = true
    · simp [List.dropWhile_cons, h, ih]
    · simp [List.dropWhile_cons, h]

lemma head?_dropWhile_false (p : Char → Bool) (l : List Char) (c : Char)
    (h : (l.dropWhile p).head? = some c) : p c = false := by
  induction l with
  | nil => simp at h
  | cons a l ih =>
    by_cases hp : p a = true
    · rw [List.dropWhile_cons, if_pos hp] at h
      exact ih h
    · rw [List.dropWhile_cons, if_neg hp] at h
      simp only [List.head?_cons, Option.some.injEq] at h
      subst h
      simpa using hp

lemma dropWhile_eq_self_of_head (p : Char → Bool) (b : List Char)
    (h : ∀ c, b.head? = some c → p c = false) : b.dropWhile p = b := by
  cases b with
  | nil => rfl
  | cons c b₁ =>
    have hc := h c rfl
    simp [List.dropWhile_cons, hc]

lemma trimRight_prefix (p : Char → Bool) (a : List Char) :
    ((a.reverse.dropWhile p).reverse) <+: a := by
  have h := (List.dropWhile_suffix (l := a.reverse) p).reverse
  rwa [List.reverse_reverse] at h

/-- Python `strip` is idempotent: stripping a stripped string changes
nothing.  Needed because `Task(...)` re-runs `validate_title` on the
already-stripped title coming out of `TaskCreate`. -/
lemma pyStrip_idem (s : String) : pyStrip (pyStrip s) = pyStrip s := by
  have hbself :
      (((s.data.dropWhile isPySpace).reverse.dropWhile isPySpace).reverse).dropWhile
        isPySpace
      = ((s.data.dropWhile isPySpace).reverse.dropWhile isPySpace).reverse := by
    apply dropWhile_eq_self_of_head
    intro c hc
    obtain ⟨t, ht⟩ := trimRight_prefix isPySpace (s.data.dropWhile isPySpace)
    have hahead : (s.data.dropWhile isPySpace).head? = some c := by
      rw [← ht, List.head?_append, hc]
      rfl
    exact head?_dropWhile_false isPySpace s.data c hahead
  apply congrArg String.mk
  calc
    ((((((s.data.dropWhile isPySpace).reverse.dropWhile isPySpace).reverse).dropWhile
        isPySpace).reverse).dropWhile isPySpace).reverse
      = (((((s.data.dropWhile isPySpace).reverse.dropWhile isPySpace).reverse).reverse).dropWhile
          isPySpace).reverse := by rw [hbself]
    _ = (((s.data.dropWhile isPySpace).reverse.dropWhile isPySpace).dropWhile
          isPySpace).reverse := by rw [List.reverse_reverse]
    _ = ((s.data.dropWhile isPySpace).reverse.dropWhile isPySpace).reverse := by
          rw [dropWhile_dropWhile]

lemma validate_title_ok (v x : String) (h : validate_title v = .ok x) :
    x = pyStrip v ∧ pyStrip v ≠ "" := by
  unfold validate_title at h
  by_cases he : pyStrip v = ""
  · rw [if_pos he] at h
    cases h
  · rw [if_neg he] at h
    cases h
    exact ⟨rfl, he⟩

lemma validate_title_stripped_ok (v : String) (h : pyStrip v ≠ "") :
    validate_title (pyStrip v) = .ok (pyStrip v) := by
  unfold validate_title
  rw [pyStrip_idem, if_neg h]

/-! ## Lemmas about JSON objects and the request parsers -/

/-- A binding for a key other than `k₁` anywhere in the object does not
change what `jget k₁` sees. -/
lemma jget_middle (k k₁ : String) (v : JVal) (l₁ l₂ : JObj) (h : k ≠ k₁) :
    jget k₁ (l₁ ++ (k, v) :: l₂) = jget k₁ (l₁ ++ l₂) := by
  induction l₁ with
  | nil => simp [jget, h]
  | cons kv l₁ ih =>
    obtain ⟨k₂, v₂⟩ := kv
    by_cases h₂ : k₂ = k₁ <;> simp [jget, h₂, ih]

lemma parseTaskCreate_extra (l₁ l₂ : JObj) (k : String) (v : JVal)
    (ht : k ≠ "title") (hd : k ≠ "description") (hc : k ≠ "completed") :
    parseTaskCreate (l₁ ++ (k, v) :: l₂) = parseTaskCreate (l₁ ++ l₂) := by
  unfold parseTaskCreate
  rw [jget_middle k "title" v l₁ l₂ ht, jget_middle k "description" v l₁ l₂ hd,
    jget_middle k "completed" v l₁ l₂ hc]

lemma parseTaskUpdate_extra (l₁ l₂ : JObj) (k : String) (v : JVal)
    (ht : k ≠ "title") (hd : k ≠ "description") (hc : k ≠ "completed") :
    parseTaskUpdate (l₁ ++ (k, v) :: l₂) = parseTaskUpdate (l₁ ++ l₂) := by
  unfold parseTaskUpdate
  rw [jget_middle k "title" v l₁ l₂ ht, jget_middle k "description" v l₁ l₂ hd,
    jget_middle k "completed" v l₁ l₂ hc]

lemma reqStrField_ok (ov : Option JVal) (v : String)
    (h : reqStrField ov = .ok v) : ov = some (.jstr v) := by
  cases ov with
  | none => cases h
  | some jv =>
    cases jv with
    | jstr w => cases h; rfl
    | jnull => cases h
    | jbool b => cases h
    | jint n => cases h

lemma parseTaskCreate_ok (o : JObj) (tc : TaskCreate)
    (h : parseTaskCreate o = .ok tc) :
    (∃ raw, jget "title" o = some (.jstr raw) ∧
      tc.title = pyStrip raw ∧ pyStrip raw ≠ "") ∧
    (∃ d, jget "description" o = some (.jstr d) ∧ tc.description = d) ∧
    (jget "completed" o = none → tc.completed = false) := by
  unfold parseTaskCreate at h
  split at h
  next e hjt => cases h
  next raw hjt =>
    split at h
    next e hv => cases h
    next title hv =>
      obtain ⟨hts, hne⟩ := validate_title_ok raw title hv
      split at h
      next e hjd => cases h
      next d hjd =>
        split at h
        next e hjc => cases h
        next b hjc =>
          cases h
          subst hts
          refine ⟨⟨raw, reqStrField_ok _ _ hjt, rfl, hne⟩,
            ⟨d, reqStrField_ok _ _ hjd, rfl⟩, ?_⟩
          intro hnone
          rw [hnone] at hjc
          simp only [optBoolField, Except.ok.injEq] at hjc
          exact hjc.symm

lemma parseTaskUpdate_ok (o : JObj) (u : TaskUpdate)
    (h : parseTaskUpdate o = .ok u) :
    parseOptField asStr "Input should be a valid string" (jget "title" o)
        = .ok u.title ∧
    parseOptField asStr "Input should be a valid string" (jget "description" o)
        = .ok u.description ∧
    parseOptField asBool "Input should be a valid boolean" (jget "completed" o)
        = .ok u.completed := by
  unfold parseTaskUpdate at h
  cases ht : parseOptField asStr "Input should be a valid string" (jget "title" o) with
  | error e => rw [ht] at h; cases h
  | ok t =>
    rw [ht] at h
    cases hd : parseOptField asStr "Input should be a valid string"
        (jget "description" o) with
    | error e => rw [hd] at h; cases h
    | ok d =>
      rw [hd] at h
      cases hc : parseOptField asBool "Input should be a valid boolean"
          (jget "completed" o) with
      | error e => rw [hc] at h; cases h
      | ok c =>
        rw [hc] at h
        cases h
        exact ⟨rfl, rfl, rfl⟩

lemma parseOptField_none {α : Type} (decode : JVal → Option α) (msg : String)
    (x : Option (Option α))
    (h : parseOptField decode msg none = .ok x) : x = none := by
  unfold parseOptField at h
  cases h
  rfl

/-! ## Lemmas about the store primitives -/

lemma findTask_error_iff (tid : Int) (l : List Task) :
    findTask tid l = .error (.httpException 404 "Task not found")
      ↔ ∀ t ∈ l, t.id ≠ tid := by
  induction l with
  | nil => simp [findTask]
  | cons t ts ih =>
    by_cases h : t.id = tid
    · simp [findTask, h]
    · simp [findTask, h, ih]

lemma findTask_ok_mem (tid : Int) (l : List Task) (t : Task)
    (h : findTask tid l = .ok t) : t ∈ l ∧ t.id = tid := by
  induction l with
  | nil => simp [findTask] at h
  | cons t₁ ts ih =>
    by_cases h₁ : t₁.id = tid
    · rw [findTask, if_pos h₁] at h
      cases h
      exact ⟨List.mem_cons_self _ _, h₁⟩
    · rw [findTask, if_neg h₁] at h
      obtain ⟨hm, hi⟩ := ih h
      exact ⟨List.mem_cons_of_mem _ hm, hi⟩

lemma findTask_ok_iff (tid : Int) (l : List Task) :
    (∃ t, findTask tid l = .ok t) ↔ ∃ t ∈ l, t.id = tid := by
  constructor
  · rintro ⟨t, h⟩
    obtain ⟨hm, hi⟩ := findTask_ok_mem tid l t h
    exact ⟨t, hm, hi⟩
  · rintro ⟨t, hm, hi⟩
    induction l with
    | nil => cases hm
    | cons t₁ ts ih =>
      by_cases h₁ : t₁.id = tid
      · exact ⟨t₁, by rw [findTask, if_pos h₁]⟩
      · rcases List.mem_cons.mp hm with hm | hm
        · subst hm; exact absurd hi h₁
        · obtain ⟨t₂, h₂⟩ := ih hm
          exact ⟨t₂, by rw [findTask, if_neg h₁]; exact h₂⟩

lemma findTask_append (tid : Int) (l₁ : List Task) (t : Task) (l₂ : List Task)
    (h₁ : ∀ x ∈ l₁, x.id ≠ tid) (h₂ : t.id = tid) :
    findTask tid (l₁ ++ t :: l₂) = .ok t := by
  induction l₁ with
  | nil => simp [findTask, h₂]
  | cons x l₁ ih =>
    have hx : x.id ≠ tid := h₁ x (List.mem_cons_self _ _)
    rw [List.cons_append, findTask, if_neg hx]
    exact ih (fun y hy => h₁ y (List.mem_cons_of_mem _ hy))

lemma updateList_none_iff (tid : Int) (u : TaskUpdate) (l : List Task) :
    updateList tid u l = none ↔ ∀ t ∈ l, t.id ≠ tid := by
  induction l with
  | nil => simp [updateList]
  | cons t ts ih =>
    by_cases h : t.id = tid
    · simp [updateList, h]
    · simp [updateList, h, Option.map_eq_none', ih]

lemma updateList_some (tid : Int) (u : TaskUpdate) (l : List Task)
    (t₁ : Task) (l₁ : List Task) (h : updateList tid u l = some (t₁, l₁)) :
    ∃ pre t post, l = pre ++ t :: post ∧ t.id = tid ∧
      (∀ x ∈ pre, x.id ≠ tid) ∧ t₁ = applyUpdate u t ∧
      l₁ = pre ++ t₁ :: post := by
  induction l generalizing l₁ with
  | nil => simp [updateList] at h
  | cons x ts ih =>
    by_cases hx : x.id = tid
    · rw [updateList, if_pos hx] at h
      cases h
      exact ⟨[], x, ts, rfl, hx, by simp, rfl, rfl⟩
    · rw [updateList, if_neg hx] at h
      cases hr : updateList tid u ts with
      | none => rw [hr] at h; cases h
      | some r =>
        obtain ⟨rt, rl⟩ := r
        rw [hr] at h
        cases h
        obtain ⟨pre, t, post, hl, hid, hpre, ht₁, hl₁⟩ := ih rl hr
        refine ⟨x :: pre, t, post, by rw [hl, List.cons_append], hid, ?_, ht₁, ?_⟩
        · intro y hy
          rcases List.mem_cons.mp hy with hy | hy
          · subst hy; exact hx
          · exact hpre y hy
        · rw [hl₁, List.cons_append]

lemma deleteList_none_iff (tid : Int) (l : List Task) :
    deleteList tid l = none ↔ ∀ t ∈ l, t.id ≠ tid := by
  induction l with
  | nil => simp [deleteList]
  | cons t ts ih =>
    by_cases h : t.id = tid
    · simp [deleteList, h]
    · simp [deleteList, h, Option.map_eq_none', ih]

lemma deleteList_some (tid : Int) (l l₁ : List Task)
    (h : deleteList tid l = some l₁) :
    ∃ pre t post, l = pre ++ t :: post ∧ t.id = tid ∧
      (∀ x ∈ pre, x.id ≠ tid) ∧ l₁ = pre ++ post := by
  induction l generalizing l₁ with
  | nil => simp [deleteList] at h
  | cons x ts ih =>
    by_cases hx : x.id = tid
    · rw [deleteList, if_pos hx] at h
      cases h
      exact ⟨[], x, ts, rfl, hx, by simp, rfl⟩
    · rw [deleteList, if_neg hx] at h
      cases hr : deleteList tid ts with
      | none => rw [hr] at h; cases h
      | some rl =>
        rw [hr] at h
        cases h
        obtain ⟨pre, t, post, hl, hid, hpre, hl₁⟩ := ih rl hr
        refine ⟨x :: pre, t, post, by rw [hl, List.cons_append], hid, ?_, ?_⟩
        · intro y hy
          rcases List.mem_cons.mp hy with hy | hy
          · subst hy; exact hx
          · exact hpre y hy
        · rw [hl₁, List.cons_append]

/-! ## Lemmas about the endpoints -/

lemma mkTask_ok (id : Int) (title description : String) (completed : Bool)
    (t : Task) (h : mkTask id title description completed = .ok t) :
    t = ⟨id, some (pyStrip title), some description, some completed⟩ := by
  unfold mkTask at h
  cases hv : validate_title title with
  | error e => rw [hv] at h; cases h
  | ok x =>
    rw [hv] at h
    cases h
    rw [(validate_title_ok title x hv).1]

lemma create_task_ok_parts (tc : TaskCreate) (s : StoreState) (t : Task)
    (s₁ : StoreState) (h : create_task tc s = (.ok t, s₁)) :
    t = ⟨s.next_id, some (pyStrip tc.title), some tc.description,
          some tc.completed⟩ ∧
    s₁ = ⟨s.tasks ++ [t], s.next_id + 1⟩ := by
  unfold create_task at h
  cases hm : mkTask s.next_id tc.title tc.description tc.completed with
  | error e => rw [hm] at h; cases h
  | ok nt =>
    rw [hm] at h
    injection h with h₁ h₂
    injection h₁ with h₁
    subst h₁
    subst h₂
    exact ⟨mkTask_ok _ _ _ _ _ hm, rfl⟩

lemma create_task_error (tc : TaskCreate) (s : StoreState) (e : ApiError)
    (h : (create_task tc s).1 = .error e) : (create_task tc s).2 = s := by
  unfold create_task at h ⊢
  cases hm : mkTask s.next_id tc.title tc.description tc.completed with
  | error e₁ => rfl
  | ok nt => rw [hm] at h; cases h

lemma create_endpoint_ok (body : JObj) (s : StoreState) (t : Task)
    (s₁ : StoreState) (h : create_endpoint body s = (.ok t, s₁)) :
    ∃ tc, parseTaskCreate body = .ok tc ∧
      t = ⟨s.next_id, some (pyStrip tc.title), some tc.description,
            some tc.completed⟩ ∧
      s₁ = ⟨s.tasks ++ [t], s.next_id + 1⟩ := by
  unfold create_endpoint at h
  cases hp : parseTaskCreate body with
  | error e =>
    rw [hp] at h
    injection h with h₁ h₂
    cases h₁
  | ok tc =>
    rw [hp] at h
    obtain ⟨h₁, h₂⟩ := create_task_ok_parts tc s t s₁ h
    exact ⟨tc, rfl, h₁, h₂⟩

lemma create_endpoint_error (body : JObj) (s : StoreState) (e : ApiError)
    (h : (create_endpoint body s).1 = .error e) :
    (create_endpoint body s).2 = s := by
  unfold create_endpoint at h ⊢
  cases hp : parseTaskCreate body with
  | error e₁ => rfl
  | ok tc =>
    rw [hp] at h
    exact create_task_error tc s e h

lemma create_task_of_valid (tc : TaskCreate) (s : StoreState)
    (hv : validate_title tc.title = .ok tc.title) :
    create_task tc s =
      (.ok ⟨s.next_id, some tc.title, some tc.description, some tc.completed⟩,
       ⟨s.tasks ++
          [⟨s.next_id, some tc.title, some tc.description, some tc.completed⟩],
        s.next_id + 1⟩) := by
  unfold create_task mkTask
  rw [hv]
  rfl

lemma create_endpoint_of_parse (body : JObj) (s : StoreState) (tc : TaskCreate)
    (hp : parseTaskCreate body = .ok tc) :
    create_endpoint body s =
      (.ok ⟨s.next_id, some tc.title, some tc.description, some tc.completed⟩,
       ⟨s.tasks ++
          [⟨s.next_id, some tc.title, some tc.description, some tc.completed⟩],
        s.next_id + 1⟩) := by
  obtain ⟨⟨raw, _, hts, hne⟩, _, _⟩ := parseTaskCreate_ok body tc hp
  have hv : validate_title tc.title = .ok tc.title := by
    rw [hts]
    exact validate_title_stripped_ok raw hne
  unfold create_endpoint
  rw [hp]
  exact create_task_of_valid tc s hv

lemma update_task_next_id (tid : Int) (u : TaskUpdate) (s : StoreState) :
    (update_task tid u s).2.next_id = s.next_id := by
  unfold update_task
  cases hl : updateList tid u s.tasks with
  | none => rfl
  | some r =>
    obtain ⟨t₁, ts₁⟩ := r
    rfl

lemma update_endpoint_next_id (tid : Int) (body : JObj) (s : StoreState) :
    (update_endpoint tid body s).2.next_id = s.next_id := by
  unfold update_endpoint
  cases hp : parseTaskUpdate body with
  | error e => rfl
  | ok u => exact update_task_next_id tid u s

lemma update_task_error (tid : Int) (u : TaskUpdate) (s : StoreState)
    (e : ApiError) (h : (update_task tid u s).1 = .error e) :
    (update_task tid u s).2 = s := by
  unfold update_task at h ⊢
  cases hl : updateList tid u s.tasks with
  | none => rfl
  | some r =>
    obtain ⟨t₁, ts₁⟩ := r
    rw [hl] at h
    cases h

lemma update_endpoint_error (tid : Int) (body : JObj) (s : StoreState)
    (e : ApiError) (h : (update_endpoint tid body s).1 = .error e) :
    (update_endpoint tid body s).2 = s := by
  unfold update_endpoint at h ⊢
  cases hp : parseTaskUpdate body with
  | error e₁ => rfl
  | ok u =>
    rw [hp] at h
    exact update_task_error tid u s e h

lemma delete_endpoint_next_id (tid : Int) (s : StoreState) :
    (delete_endpoint tid s).2.next_id = s.next_id := by
  unfold delete_endpoint
  cases hl : deleteList tid s.tasks with
  | none => rfl
  | some ts₁ => rfl

lemma delete_endpoint_error (tid : Int) (s : StoreState) (e : ApiError)
    (h : (delete_endpoint tid s).1 = .error e) :
    (delete_endpoint tid s).2 = s := by
  unfold delete_endpoint at h ⊢
  cases hl : deleteList tid s.tasks with
  | none => rfl
  | some ts₁ => rw [hl] at h; cases h

/-! ## The reachability invariant behind the id counter -/

lemma reachable_ids_lt (s : StoreState) (ids : List Int)
    (h : Reachable s ids) : ∀ a ∈ ids, a < s.next_id := by
  induction h with
  | init => intro a ha; cases ha
  | step op s₀ ids₀ r s₁ hr hrun ih =>
    cases op with
    | list =>
      injection hrun with h₁ h₂
      subst h₂
      simpa [assignedIds, get_tasks] using ih
    | getOne tid =>
      injection hrun with h₁ h₂
      subst h₂
      simpa [assignedIds, get_task] using ih
    | create body =>
      simp only [runOp] at hrun
      injection hrun with h₁ h₂
      cases hres : (create_endpoint body s₀).1 with
      | error e =>
        have hs : (create_endpoint body s₀).2 = s₀ :=
          create_endpoint_error body s₀ e hres
        rw [hs] at h₂
        subst h₂
        rw [hres] at h₁
        subst h₁
        simpa [assignedIds, createdId, Except.map] using ih
      | ok t =>
        have hc : create_endpoint body s₀ = (.ok t, (create_endpoint body s₀).2) := by
          rw [← hres]
        obtain ⟨tc, hp, ht, hs⟩ :=
          create_endpoint_ok body s₀ t (create_endpoint body s₀).2 hc
        rw [hs] at h₂
        subst h₂
        rw [hres] at h₁
        subst h₁
        intro a ha
        simp only [assignedIds, createdId, Except.map, List.mem_append,
          List.mem_singleton] at ha
        show a < s₀.next_id + 1
        rcases ha with ha | ha
        · have := ih a ha
          omega
        · subst ha
          rw [ht]
          show s₀.next_id < s₀.next_id + 1
          omega
    | update tid body =>
      simp only [runOp] at hrun
      injection hrun with h₁ h₂
      subst h₂
      intro a ha
      rw [update_endpoint_next_id tid body s₀]
      simp only [assignedIds, List.append_nil] at ha
      exact ih a ha
    | delete tid =>
      simp only [runOp] at hrun
      injection hrun with h₁ h₂
      subst h₂
      intro a ha
      rw [delete_endpoint_next_id tid s₀]
      simp only [assignedIds, List.append_nil] at ha
      exact ih a ha

lemma update_endpoint_tasks_ids (tid : Int) (body : JObj) (s : StoreState) :
    (update_endpoint tid body s).2.tasks.map Task.id
      = s.tasks.map Task.id := by
  unfold update_endpoint
  cases hp : parseTaskUpdate body with
  | error e => rfl
  | ok u =>
    show (update_task tid u s).2.tasks.map Task.id = s.tasks.map Task.id
    unfold update_task
    cases hl : updateList tid u s.tasks with
    | none => rfl
    | some r =>
      obtain ⟨t₁, ts₁⟩ := r
      obtain ⟨pre, t, post, hdec, hid, hpre, ht₁, hts⟩ :=
        updateList_some tid u s.tasks t₁ ts₁ hl
      show ts₁.map Task.id = s.tasks.map Task.id
      rw [hts, hdec, ht₁]
      simp [applyUpdate]

/-! ## Success-shape lemmas for update and delete -/

lemma updateList_of_findTask (tid : Int) (u : TaskUpdate) (l : List Task)
    (t : Task) (h : findTask tid l = .ok t) :
    ∃ pre post, l = pre ++ t :: post ∧
      updateList tid u l
        = some (applyUpdate u t, pre ++ applyUpdate u t :: post) := by
  induction l with
  | nil => cases h
  | cons x ts ih =>
    by_cases hx : x.id = tid
    · rw [findTask, if_pos hx] at h
      injection h with h₁
      subst h₁
      refine ⟨[], ts, rfl, ?_⟩
      rw [updateList, if_pos hx]
      rfl
    · rw [findTask, if_neg hx] at h
      obtain ⟨pre, post, hdec, hul⟩ := ih h
      refine ⟨x :: pre, post, by rw [hdec, List.cons_append], ?_⟩
      rw [updateList, if_neg hx, hul]
      rfl

lemma update_task_of_findTask (tid : Int) (u : TaskUpdate) (s : StoreState)
    (t : Task) (h : findTask tid s.tasks = .ok t) :
    ∃ pre post, s.tasks = pre ++ t :: post ∧
      update_task tid u s
        = (.ok (applyUpdate u t),
           ⟨pre ++ applyUpdate u t :: post, s.next_id⟩) := by
  obtain ⟨pre, post, hdec, hul⟩ := updateList_of_findTask tid u s.tasks t h
  refine ⟨pre, post, hdec, ?_⟩
  unfold update_task
  rw [hul]

lemma update_task_error_iff (tid : Int) (u : TaskUpdate) (s : StoreState) :
    (update_task tid u s).1 = .error (.httpException 404 "Task not found")
      ↔ ∀ t ∈ s.tasks, t.id ≠ tid := by
  unfold update_task
  cases hl : updateList tid u s.tasks with
  | none =>
    rw [updateList_none_iff] at hl
    exact ⟨fun _ => hl, fun _ => rfl⟩
  | some r =>
    obtain ⟨t₁, ts₁⟩ := r
    constructor
    · intro h
      cases h
    · intro hall
      exact absurd ((updateList_none_iff tid u s.tasks).mpr hall)
        (by rw [hl]; simp)

lemma update_task_ok_iff (tid : Int) (u : TaskUpdate) (s : StoreState) :
    (∃ t₁, (update_task tid u s).1 = .ok t₁) ↔ ∃ t ∈ s.tasks, t.id = tid := by
  unfold update_task
  cases hl : updateList tid u s.tasks with
  | none =>
    constructor
    · rintro ⟨t₁, h⟩
      cases h
    · rintro ⟨t, hm, hi⟩
      rw [updateList_none_iff] at hl
      exact absurd hi (hl t hm)
  | some r =>
    obtain ⟨t₁, ts₁⟩ := r
    constructor
    · intro _
      obtain ⟨pre, t, post, hdec, hid, -, -, -⟩ :=
        updateList_some tid u s.tasks t₁ ts₁ hl
      refine ⟨t, ?_, hid⟩
      rw [hdec]
      exact List.mem_append_right _ (List.mem_cons_self _ _)
    · intro _
      exact ⟨t₁, rfl⟩

lemma delete_endpoint_error_iff (tid : Int) (s : StoreState) :
    (delete_endpoint tid s).1 = .error (.httpException 404 "Task not found")
      ↔ ∀ t ∈ s.tasks, t.id ≠ tid := by
  unfold delete_endpoint
  cases hl : deleteList tid s.tasks with
  | none =>
    rw [deleteList_none_iff] at hl
    exact ⟨fun _ => hl, fun _ => rfl⟩
  | some ts₁ =>
    constructor
    · intro h
      cases h
    · intro hall
      exact absurd ((deleteList_none_iff tid s.tasks).mpr hall)
        (by rw [hl]; simp)

lemma delete_endpoint_ok_iff (tid : Int) (s : StoreState) :
    (delete_endpoint tid s).1 = .ok () ↔ ∃ t ∈ s.tasks, t.id = tid := by
  unfold delete_endpoint
  cases hl : deleteList tid s.tasks with
  | none =>
    constructor
    · intro h
      cases h
    · rintro ⟨t, hm, hi⟩
      rw [deleteList_none_iff] at hl
      exact absurd hi (hl t hm)
  | some ts₁ =>
    constructor
    · intro _
      obtain ⟨pre, t, post, hdec, hid, -, -⟩ :=
        deleteList_some tid s.tasks ts₁ hl
      refine ⟨t, ?_, hid⟩
      rw [hdec]
      exact List.mem_append_right _ (List.mem_cons_self _ _)
    · intro _
      rfl

lemma delete_endpoint_ok_state (tid : Int) (s s₁ : StoreState)
    (h : delete_endpoint tid s = (.ok (), s₁)) :
    ∃ pre t post, s.tasks = pre ++ t :: post ∧ t.id = tid ∧
      (∀ x ∈ pre, x.id ≠ tid) ∧ s₁.tasks = pre ++ post := by
  unfold delete_endpoint at h
  cases hl : deleteList tid s.tasks with
  | none => rw [hl] at h; cases h
  | some ts₁ =>
    rw [hl] at h
    injection h with h₁ h₂
    obtain ⟨pre, t, post, hdec, hid, hpre, hts⟩ :=
      deleteList_some tid s.tasks ts₁ hl
    refine ⟨pre, t, post, hdec, hid, hpre, ?_⟩
    rw [← h₂, hts]

/-- In every reachable store the task ids are pairwise distinct and all
below the counter: the id-uniqueness invariant assumed by the 404
sequencing facts holds of every state the service can actually be in. -/
lemma reachable_store_inv (s : StoreState) (ids : List Int)
    (h : Reachable s ids) :
    (s.tasks.map Task.id).Nodup ∧ ∀ t ∈ s.tasks, t.id < s.next_id := by
  induction h with
  | init => exact ⟨List.nodup_nil, by intro t ht; cases ht⟩
  | step op s₀ ids₀ r s₁ hr hrun ih =>
    obtain ⟨ihn, ihlt⟩ := ih
    cases op with
    | list =>
      injection hrun with h₁ h₂
      subst h₂
      exact ⟨ihn, ihlt⟩
    | getOne tid =>
      injection hrun with h₁ h₂
      subst h₂
      exact ⟨ihn, ihlt⟩
    | create body =>
      simp only [runOp] at hrun
      injection hrun with h₁ h₂
      cases hres : (create_endpoint body s₀).1 with
      | error e =>
        have hs := create_endpoint_error body s₀ e hres
        rw [hs] at h₂
        subst h₂
        exact ⟨ihn, ihlt⟩
      | ok t =>
        have hc : create_endpoint body s₀
            = (.ok t, (create_endpoint body s₀).2) := by
          rw [← hres]
        obtain ⟨tc, hp, ht, hs⟩ := create_endpoint_ok body s₀ t _ hc
        rw [hs] at h₂
        subst h₂
        have hid : t.id = s₀.next_id := by rw [ht]
        constructor
        · show ((s₀.tasks ++ [t]).map Task.id).Nodup
          rw [List.map_append]
          refine List.Nodup.append ihn (List.nodup_singleton _) ?_
          intro a ha hb
          obtain ⟨y, hy, hye⟩ := List.mem_map.mp ha
          simp only [List.map_cons, List.map_nil, List.mem_singleton] at hb
          have hlt := ihlt y hy
          rw [hye, hb, hid] at hlt
          omega
        · intro x hx
          show x.id < s₀.next_id + 1
          rcases List.mem_append.mp hx with hx | hx
          · have := ihlt x hx
            omega
          · rw [List.mem_singleton] at hx
            subst hx
            omega
    | update tid body =>
      simp only [runOp] at hrun
      injection hrun with h₁ h₂
      subst h₂
      constructor
      · rw [update_endpoint_tasks_ids]
        exact ihn
      · intro x hx
        rw [update_endpoint_next_id]
        have hmem : x.id ∈ (update_endpoint tid body s₀).2.tasks.map Task.id :=
          List.mem_map_of_mem Task.id hx
        rw [update_endpoint_tasks_ids] at hmem
        obtain ⟨y, hy, hye⟩ := List.mem_map.mp hmem
        rw [← hye]
        exact ihlt y hy
    | delete tid =>
      simp only [runOp] at hrun
      injection hrun with h₁ h₂
      subst h₂
      cases hres : (delete_endpoint tid s₀).1 with
      | error e =>
        have hs := delete_endpoint_error tid s₀ e hres
        rw [hs]
        exact ⟨ihn, ihlt⟩
      | ok unitVal =>
        cases unitVal
        have hc : delete_endpoint tid s₀
            = (.ok (), (delete_endpoint tid s₀).2) := by
          rw [← hres]
        obtain ⟨pre, t, post, hdec, hid, hpre, hts⟩ :=
          delete_endpoint_ok_state tid s₀ _ hc
        constructor
        · rw [hts, List.map_append]
          rw [hdec, List.map_append, List.map_cons] at ihn
          exact (List.nodup_cons.mp (List.nodup_middle.mp ihn)).2
        · intro x hx
          rw [delete_endpoint_next_id]
          rw [hts] at hx
          refine ihlt x ?_
          rw [hdec]
          rcases List.mem_append.mp hx with hx | hx
          · exact List.mem_append_left _ hx
          · exact List.mem_append_right _ (List.mem_cons_of_mem _ hx)

/-! ## Claim theorems -/

/-- C1: against any reachable store (with `ids` the full history of ids the
service has assigned since process start), a successful create returns a
task whose id is strictly greater than every previously assigned id, and in
particular one that was never assigned before — even to a task deleted
since. -/
theorem C1_create_id_fresh_monotonic (s : StoreState) (ids : List Int)
    (body : JObj) (t : Task) (s₁ : StoreState)
    (hr : Reachable s ids) (hc : create_endpoint body s = (.ok t, s₁)) :
    (∀ a ∈ ids, a < t.id) ∧ t.id ∉ ids := by
  obtain ⟨tc, hp, ht, hs⟩ := create_endpoint_ok body s t s₁ hc
  have hlt := reachable_ids_lt s ids hr
  have hid : t.id = s.next_id := by rw [ht]
  constructor
  · intro a ha
    rw [hid]
    exact hlt a ha
  · intro hmem
    have hcontra := hlt t.id hmem
    rw [hid] at hcontra
    omega

/-- Witness for C1 at the initial state and a concrete create. -/
theorem C1_witness :
    (∀ a ∈ ([] : List Int), a < (Task.mk 1 (some "A") (some "d") (some false)).id) ∧
    (Task.mk 1 (some "A") (some "d") (some false)).id ∉ ([] : List Int) :=
  C1_create_id_fresh_monotonic initState []
    [("title", JVal.jstr "A"), ("description", JVal.jstr "d")]
    (Task.mk 1 (some "A") (some "d") (some false))
    (StoreState.mk [Task.mk 1 (some "A") (some "d") (some false)] 2)
    Reachable.init rfl

/-- C7: every request is atomic — whenever any operation answers an error
(validation failure on create, 404 on get/update/delete), the store (task
list and id counter) is exactly what it was before the request. -/
theorem C7_operations_atomic (op : Op) (s : StoreState) (e : ApiError)
    (h : (runOp op s).1 = .error e) : (runOp op s).2 = s := by
  cases op with
  | list => cases h
  | getOne tid => rfl
  | create body =>
    simp only [runOp] at h ⊢
    cases hres : (create_endpoint body s).1 with
    | error e₁ => exact create_endpoint_error body s e₁ hres
    | ok t => rw [hres] at h; cases h
  | update tid body =>
    simp only [runOp] at h ⊢
    cases hres : (update_endpoint tid body s).1 with
    | error e₁ => exact update_endpoint_error tid body s e₁ hres
    | ok t => rw [hres] at h; cases h
  | delete tid =>
    simp only [runOp] at h ⊢
    cases hres : (delete_endpoint tid s).1 with
    | error e₁ => exact delete_endpoint_error tid s e₁ hres
    | ok t => rw [hres] at h; cases h

/-- Witness for C7: a delete on the empty store fails and leaves the
initial state intact. -/
theorem C7_witness : (runOp (Op.delete 1) initState).2 = initState :=
  C7_operations_atomic (Op.delete 1) initState
    (ApiError.httpException 404 "Task not found") rfl

lemma parseTaskCreate_title_desc_err (v d : String) (he : pyStrip v = "") :
    parseTaskCreate [("title", JVal.jstr v), ("description", JVal.jstr d)]
      = .error (.validationError "Title cannot be empty") := by
  have hv : validate_title v
      = .error (.validationError "Title cannot be empty") := by
    unfold validate_title
    rw [if_pos he]
  simp [parseTaskCreate, jget, reqStrField, optBoolField, hv]

lemma parseTaskCreate_title_desc_ok (v d : String) (hne : pyStrip v ≠ "") :
    parseTaskCreate [("title", JVal.jstr v), ("description", JVal.jstr d)]
      = .ok ⟨pyStrip v, d, false⟩ := by
  have hv : validate_title v = .ok (pyStrip v) := by
    unfold validate_title
    rw [if_neg hne]
  simp [parseTaskCreate, jget, reqStrField, optBoolField, hv]

/-- C2: a create whose body carries the title string `v` (and a
description) fails with the validation message "Title cannot be empty"
exactly when `v` is empty after stripping surrounding whitespace; when it
succeeds, the stored title is the stripped value of the input. -/
theorem C2_create_title_validation (v d : String) (s : StoreState) :
    ((create_endpoint [("title", JVal.jstr v), ("description", JVal.jstr d)] s).1
        = .error (.validationError "Title cannot be empty") ↔ pyStrip v = "") ∧
    (∀ t s₁,
      create_endpoint [("title", JVal.jstr v), ("description", JVal.jstr d)] s
          = (.ok t, s₁) → t.title = some (pyStrip v)) := by
  by_cases he : pyStrip v = ""
  · have hce : create_endpoint
        [("title", JVal.jstr v), ("description", JVal.jstr d)] s
        = (.error (.validationError "Title cannot be empty"), s) := by
      unfold create_endpoint
      rw [parseTaskCreate_title_desc_err v d he]
    constructor
    · rw [hce]
      exact ⟨fun _ => he, fun _ => rfl⟩
    · intro t s₁ hok
      rw [hce] at hok
      injection hok with h₁ h₂
      cases h₁
  · have hce := create_endpoint_of_parse
      [("title", JVal.jstr v), ("description", JVal.jstr d)] s
      ⟨pyStrip v, d, false⟩ (parseTaskCreate_title_desc_ok v d he)
    constructor
    · rw [hce]
      constructor
      · intro hcontra
        cases hcontra
      · intro h
        exact absurd h he
    · intro t s₁ hok
      rw [hce] at hok
      injection hok with h₁ h₂
      injection h₁ with h₁
      rw [← h₁]

/-- Witness for C2: `"   "` is rejected with the validator message, and
`"  Buy milk  "` is stored stripped. -/
theorem C2_witness :
    ((create_endpoint [("title", JVal.jstr "   "), ("description", JVal.jstr "d")]
        initState).1 = .error (.validationError "Title cannot be empty")) ∧
    (Task.mk 1 (some "Buy milk") (some "d") (some false)).title
      = some (pyStrip "  Buy milk  ") := by
  constructor
  · exact (C2_create_title_validation "   " "d" initState).1.mpr rfl
  · exact (C2_create_title_validation "  Buy milk  " "d" initState).2
      (Task.mk 1 (some "Buy milk") (some "d") (some false))
      (StoreState.mk [Task.mk 1 (some "Buy milk") (some "d") (some false)] 2)
      rfl

/-- C3: an update on an existing task changes only the fields present in
the request body: each omitted field keeps its previous value, an empty
body leaves the task entirely unchanged, the id is never changed, and any
key other than `title`/`description`/`completed` is ignored by the body
parser. -/
theorem C3_update_frame (s : StoreState) (tid : Int) (body : JObj)
    (t t₁ : Task) (s₁ : StoreState)
    (hfind : findTask tid s.tasks = .ok t)
    (hupd : update_endpoint tid body s = (.ok t₁, s₁)) :
    t₁.id = t.id ∧
    (jget "title" body = none → t₁.title = t.title) ∧
    (jget "description" body = none → t₁.description = t.description) ∧
    (jget "completed" body = none → t₁.completed = t.completed) ∧
    (body = [] → t₁ = t) ∧
    (∀ l₁ l₂ k v, k ≠ "title" → k ≠ "description" → k ≠ "completed" →
      parseTaskUpdate (l₁ ++ (k, v) :: l₂) = parseTaskUpdate (l₁ ++ l₂)) := by
  unfold update_endpoint at hupd
  cases hp : parseTaskUpdate body with
  | error e =>
    rw [hp] at hupd
    injection hupd with h₁ h₂
    cases h₁
  | ok u =>
    rw [hp] at hupd
    have hupd₁ : update_task tid u s = (.ok t₁, s₁) := hupd
    obtain ⟨pre, post, hdec, hut⟩ := update_task_of_findTask tid u s t hfind
    rw [hut] at hupd₁
    injection hupd₁ with h₁ h₂
    injection h₁ with h₁
    obtain ⟨htit, hdesc, hcomp⟩ := parseTaskUpdate_ok body u hp
    refine ⟨?_, ?_, ?_, ?_, ?_, parseTaskUpdate_extra⟩
    · rw [← h₁]
      rfl
    · intro hnone
      rw [hnone] at htit
      have hu : u.title = none := (parseOptField_none _ _ _ htit).symm ▸ rfl
      rw [← h₁]
      show u.title.getD t.title = t.title
      rw [hu]
      rfl
    · intro hnone
      rw [hnone] at hdesc
      have hu : u.description = none := (parseOptField_none _ _ _ hdesc).symm ▸ rfl
      rw [← h₁]
      show u.description.getD t.description = t.description
      rw [hu]
      rfl
    · intro hnone
      rw [hnone] at hcomp
      have hu : u.completed = none := (parseOptField_none _ _ _ hcomp).symm ▸ rfl
      rw [← h₁]
      show u.completed.getD t.completed = t.completed
      rw [hu]
      rfl
    · intro hb
      subst hb
      have h₂ : u.title = none := parseOptField_none _ _ _ htit
      have h₃ : u.description = none := parseOptField_none _ _ _ hdesc
      have h₄ : u.completed = none := parseOptField_none _ _ _ hcomp
      rw [← h₁]
      show Task.mk t.id (u.title.getD t.title) (u.description.getD t.description)
        (u.completed.getD t.completed) = t
      rw [h₂, h₃, h₄]
      rfl

/-- Witness for C3: updating only `completed` keeps id, title and
description. -/
theorem C3_witness :
    (Task.mk 1 (some "A") (some "d") (some true)).id
        = (Task.mk 1 (some "A") (some "d") (some false)).id ∧
    (Task.mk 1 (some "A") (some "d") (some true)).title
        = (Task.mk 1 (some "A") (some "d") (some false)).title := by
  have h := C3_update_frame
    (StoreState.mk [Task.mk 1 (some "A") (some "d") (some false)] 2)
    1 [("completed", JVal.jbool true)]
    (Task.mk 1 (some "A") (some "d") (some false))
    (Task.mk 1 (some "A") (some "d") (some true))
    (StoreState.mk [Task.mk 1 (some "A") (some "d") (some true)] 2)
    rfl rfl
  exact ⟨h.1, h.2.1 rfl⟩

/-- C4: the update path re-applies no title validation: updating an
existing task with any title string `w` — including an empty or
whitespace-only one — succeeds and stores `w` verbatim, untrimmed. -/
theorem C4_update_title_unvalidated (s : StoreState) (tid : Int) (t : Task)
    (w : String) (hfind : findTask tid s.tasks = .ok t) :
    ∃ t₁ s₁, update_endpoint tid [("title", JVal.jstr w)] s = (.ok t₁, s₁) ∧
      t₁.title = some w ∧ t₁ ∈ s₁.tasks := by
  have hp : parseTaskUpdate [("title", JVal.jstr w)]
      = .ok ⟨some (some w), none, none⟩ := rfl
  obtain ⟨pre, post, hdec, hut⟩ :=
    update_task_of_findTask tid ⟨some (some w), none, none⟩ s t hfind
  refine ⟨applyUpdate ⟨some (some w), none, none⟩ t,
    ⟨pre ++ applyUpdate ⟨some (some w), none, none⟩ t :: post, s.next_id⟩,
    ?_, rfl, ?_⟩
  · unfold update_endpoint
    rw [hp]
    exact hut
  · exact List.mem_append_right _ (List.mem_cons_self _ _)

/-- Witness for C4: a whitespace-only title is stored verbatim by update. -/
theorem C4_witness :
    ∃ t₁ s₁,
      update_endpoint 1 [("title", JVal.jstr "   ")]
          (StoreState.mk [Task.mk 1 (some "A") (some "d") (some false)] 2)
        = (.ok t₁, s₁) ∧ t₁.title = some "   " ∧ t₁ ∈ s₁.tasks :=
  C4_update_title_unvalidated
    (StoreState.mk [Task.mk 1 (some "A") (some "d") (some false)] 2)
    1 (Task.mk 1 (some "A") (some "d") (some false)) "   " rfl

/-- C5: get, update and delete answer 404 "Task not found" exactly when no
stored task carries the requested id, and succeed exactly when one does;
consequently (under the id-uniqueness invariant) a successful delete makes
a subsequent get fail with 404, and a second delete of the same id fails
with 404. -/
theorem C5_not_found_semantics (s : StoreState) (tid : Int) (u : TaskUpdate)
    (hnodup : (s.tasks.map Task.id).Nodup) :
    ((get_task tid s).1 = .error (.httpException 404 "Task not found")
        ↔ ∀ t ∈ s.tasks, t.id ≠ tid) ∧
    ((∃ t, (get_task tid s).1 = .ok t) ↔ ∃ t ∈ s.tasks, t.id = tid) ∧
    ((update_task tid u s).1 = .error (.httpException 404 "Task not found")
        ↔ ∀ t ∈ s.tasks, t.id ≠ tid) ∧
    ((∃ t₁, (update_task tid u s).1 = .ok t₁) ↔ ∃ t ∈ s.tasks, t.id = tid) ∧
    ((delete_endpoint tid s).1 = .error (.httpException 404 "Task not found")
        ↔ ∀ t ∈ s.tasks, t.id ≠ tid) ∧
    ((delete_endpoint tid s).1 = .ok () ↔ ∃ t ∈ s.tasks, t.id = tid) ∧
    (∀ s₁, delete_endpoint tid s = (.ok (), s₁) →
      (get_task tid s₁).1 = .error (.httpException 404 "Task not found") ∧
      (delete_endpoint tid s₁).1
        = .error (.httpException 404 "Task not found")) := by
  refine ⟨findTask_error_iff tid s.tasks, findTask_ok_iff tid s.tasks,
    update_task_error_iff tid u s, update_task_ok_iff tid u s,
    delete_endpoint_error_iff tid s, delete_endpoint_ok_iff tid s, ?_⟩
  intro s₁ hdel
  obtain ⟨pre, t, post, hdec, hid, hpre, hts⟩ :=
    delete_endpoint_ok_state tid s s₁ hdel
  have hall : ∀ x ∈ s₁.tasks, x.id ≠ tid := by
    rw [hts]
    intro x hx hxe
    rw [hdec, List.map_append, List.map_cons] at hnodup
    have hnotin := (List.nodup_cons.mp (List.nodup_middle.mp hnodup)).1
    have hmem : x.id ∈ (pre ++ post).map Task.id :=
      List.mem_map_of_mem Task.id hx
    rw [List.map_append] at hmem
    rw [hxe, ← hid] at hmem
    exact hnotin hmem
  exact ⟨(findTask_error_iff tid s₁.tasks).mpr hall,
    (delete_endpoint_error_iff tid s₁).mpr hall⟩

/-- Witness for C5: after deleting the only task, both get and a second
delete answer 404. -/
theorem C5_witness :
    (get_task 1 (StoreState.mk ([] : List Task) 2)).1
        = .error (.httpException 404 "Task not found") ∧
    (delete_endpoint 1 (StoreState.mk ([] : List Task) 2)).1
        = .error (.httpException 404 "Task not found") := by
  have h := C5_not_found_semantics
    (StoreState.mk [Task.mk 1 (some "A") (some "d") (some false)] 2)
    1 (TaskUpdate.mk none none none) (by decide)
  exact h.2.2.2.2.2.2 (StoreState.mk ([] : List Task) 2) rfl

/-- C6: the store order is insertion order: a successful create appends the
new task at the end; a successful delete removes exactly the (first, hence
under unique ids the only) task with the requested id and keeps the
remaining tasks in order; list returns the stored sequence unchanged. -/
theorem C6_insertion_order (s : StoreState) (body : JObj) (tid : Int) :
    (∀ t s₁, create_endpoint body s = (.ok t, s₁) →
      s₁.tasks = s.tasks ++ [t]) ∧
    (∀ s₁, delete_endpoint tid s = (.ok (), s₁) →
      ∃ pre t post, s.tasks = pre ++ t :: post ∧ t.id = tid ∧
        (∀ x ∈ pre, x.id ≠ tid) ∧ s₁.tasks = pre ++ post) ∧
    (get_tasks s).1 = s.tasks := by
  refine ⟨?_, fun s₁ h => delete_endpoint_ok_state tid s s₁ h, rfl⟩
  intro t s₁ h
  obtain ⟨tc, hp, ht, hs⟩ := create_endpoint_ok body s t s₁ h
  rw [hs]

/-- Witness for C6 on a concrete store: a create appends, a delete removes
the matching task, and list echoes the store. -/
theorem C6_witness :
    (StoreState.mk [Task.mk 1 (some "A") (some "d") (some false),
        Task.mk 2 (some "B") (some "e") (some false)] 3).tasks
      = (StoreState.mk [Task.mk 1 (some "A") (some "d") (some false)] 2).tasks
          ++ [Task.mk 2 (some "B") (some "e") (some false)] ∧
    (∃ pre t post,
      (StoreState.mk [Task.mk 1 (some "A") (some "d") (some false)] 2).tasks
          = pre ++ t :: post ∧ t.id = 1 ∧ (∀ x ∈ pre, x.id ≠ 1) ∧
        (StoreState.mk ([] : List Task) 2).tasks = pre ++ post) ∧
    (get_tasks (StoreState.mk [Task.mk 1 (some "A") (some "d") (some false)] 2)).1
      = (StoreState.mk [Task.mk 1 (some "A") (some "d") (some false)] 2).tasks := by
  have h := C6_insertion_order
    (StoreState.mk [Task.mk 1 (some "A") (some "d") (some false)] 2)
    [("title", JVal.jstr "B"), ("description", JVal.jstr "e")] 1
  exact ⟨h.1 (Task.mk 2 (some "B") (some "e") (some false))
      (StoreState.mk [Task.mk 1 (some "A") (some "d") (some false),
        Task.mk 2 (some "B") (some "e") (some false)] 3) rfl,
    h.2.1 (StoreState.mk ([] : List Task) 2) rfl,
    h.2.2⟩

/-- C8: a create whose body has no `completed` key yields a task with
`completed = false`. -/
theorem C8_completed_defaults_false (body : JObj) (s : StoreState) (t : Task)
    (s₁ : StoreState) (hno : jget "completed" body = none)
    (h : create_endpoint body s = (.ok t, s₁)) : t.completed = some false := by
  obtain ⟨tc, hp, ht, -⟩ := create_endpoint_ok body s t s₁ h
  obtain ⟨-, -, hcomp⟩ := parseTaskCreate_ok body tc hp
  rw [ht]
  show some tc.completed = some false
  rw [hcomp hno]

/-- Witness for C8 on a concrete create without `completed`. -/
theorem C8_witness :
    (Task.mk 1 (some "A") (some "d") (some false)).completed = some false :=
  C8_completed_defaults_false
    [("title", JVal.jstr "A"), ("description", JVal.jstr "d")] initState
    (Task.mk 1 (some "A") (some "d") (some false))
    (StoreState.mk [Task.mk 1 (some "A") (some "d") (some false)] 2) rfl rfl

/-- C9: updating an existing task with an explicit JSON null for `title`
(resp. `description`, `completed`) succeeds, stores `None` into that field
— so the stored record no longer matches the declared `Task` shape — and
raises no validation error. -/
theorem C9_explicit_null_overwrites (s : StoreState) (tid : Int) (t : Task)
    (hfind : findTask tid s.tasks = .ok t) :
    (∃ t₁ s₁, update_endpoint tid [("title", JVal.jnull)] s = (.ok t₁, s₁) ∧
      t₁.title = none ∧ t₁ ∈ s₁.tasks ∧ ¬ TaskShape t₁) ∧
    (∃ t₁ s₁,
      update_endpoint tid [("description", JVal.jnull)] s = (.ok t₁, s₁) ∧
      t₁.description = none) ∧
    (∃ t₁ s₁,
      update_endpoint tid [("completed", JVal.jnull)] s = (.ok t₁, s₁) ∧
      t₁.completed = none) := by
  refine ⟨?_, ?_, ?_⟩
  · obtain ⟨pre, post, hdec, hut⟩ :=
      update_task_of_findTask tid ⟨some none, none, none⟩ s t hfind
    refine ⟨applyUpdate ⟨some none, none, none⟩ t,
      ⟨pre ++ applyUpdate ⟨some none, none, none⟩ t :: post, s.next_id⟩,
      ?_, rfl, ?_, ?_⟩
    · unfold update_endpoint
      rw [show parseTaskUpdate [("title", JVal.jnull)]
          = .ok ⟨some none, none, none⟩ from rfl]
      exact hut
    · exact List.mem_append_right _ (List.mem_cons_self _ _)
    · intro hshape
      obtain ⟨h₁, -, -⟩ := hshape
      cases h₁
  · obtain ⟨pre, post, hdec, hut⟩ :=
      update_task_of_findTask tid ⟨none, some none, none⟩ s t hfind
    refine ⟨applyUpdate ⟨none, some none, none⟩ t,
      ⟨pre ++ applyUpdate ⟨none, some none, none⟩ t :: post, s.next_id⟩,
      ?_, rfl⟩
    unfold update_endpoint
    rw [show parseTaskUpdate [("description", JVal.jnull)]
        = .ok ⟨none, some none, none⟩ from rfl]
    exact hut
  · obtain ⟨pre, post, hdec, hut⟩ :=
      update_task_of_findTask tid ⟨none, none, some none⟩ s t hfind
    refine ⟨applyUpdate ⟨none, none, some none⟩ t,
      ⟨pre ++ applyUpdate ⟨none, none, some none⟩ t :: post, s.next_id⟩,
      ?_, rfl⟩
    unfold update_endpoint
    rw [show parseTaskUpdate [("completed", JVal.jnull)]
        = .ok ⟨none, none, some none⟩ from rfl]
    exact hut

/-- Witness for C9 on a concrete store. -/
theorem C9_witness :
    ∃ t₁ s₁,
      update_endpoint 1 [("title", JVal.jnull)]
          (StoreState.mk [Task.mk 1 (some "A") (some "d") (some false)] 2)
        = (.ok t₁, s₁) ∧
      t₁.title = none ∧ t₁ ∈ s₁.tasks ∧ ¬ TaskShape t₁ :=
  (C9_explicit_null_overwrites
    (StoreState.mk [Task.mk 1 (some "A") (some "d") (some false)] 2)
    1 (Task.mk 1 (some "A") (some "d") (some false)) rfl).1

/-- C10: the created task's id is always the service counter, and the body
parser ignores every key outside `title`/`description`/`completed`; in
particular a client-supplied `"id"` never reaches the store. -/
theorem C10_client_id_ignored (body : JObj) (s : StoreState) (t : Task)
    (s₁ : StoreState) (h : create_endpoint body s = (.ok t, s₁)) :
    t.id = s.next_id ∧
    (∀ l₁ l₂ k v, k ≠ "title" → k ≠ "description" → k ≠ "completed" →
      parseTaskCreate (l₁ ++ (k, v) :: l₂) = parseTaskCreate (l₁ ++ l₂)) := by
  obtain ⟨tc, hp, ht, -⟩ := create_endpoint_ok body s t s₁ h
  exact ⟨by rw [ht], parseTaskCreate_extra⟩

/-- Witness for C10: a body carrying `"id": 99` still gets the counter
value 1 as its id. -/
theorem C10_witness :
    (Task.mk 1 (some "A") (some "d") (some false)).id = initState.next_id :=
  (C10_client_id_ignored
    [("id", JVal.jint 99), ("title", JVal.jstr "A"),
      ("description", JVal.jstr "d")]
    initState (Task.mk 1 (some "A") (some "d") (some false))
    (StoreState.mk [Task.mk 1 (some "A") (some "d") (some false)] 2) rfl).1

end TodoApp
